import Mathlib

/-!
Verification development for the type-hint composition and symbol-resolution
engine of a schema-to-code generator (`datamodel_code_generator/model/base.py`
and `model/pydantic/custom_root_type.py`).

The Python code is shallowly embedded: pure computations become Lean
functions, the mutations performed by `DataModelField.__init__`,
`DataModelField._get_type_hint` (through the `optional` decorator) and
`DataModel.__init__` become explicit value-passing, and the one fallible
step of `DataModel.__init__` (the `TEMPLATE_FILE_PATH` check, which raises)
becomes an `Except` result.  Filesystem work (custom template discovery,
template reading in `TemplateBase.__init__`) and the `extra_template_data`
defaultdict lookup are outside the modelled state: no claim depends on them.
-/

/-! ## Generic string machinery

Python string operations used by the source (`str.replace(old, new, 1)`,
`old in s`, `s.startswith(p)`, `s.rsplit('.', 1)`) are modelled over
`List Char`.
-/

/-- Predicate `leadsList pat hay` is true when `pat` is an initial segment of `hay`
(Python `hay.startswith(pat)`). -/
def leadsList : List Char → List Char → Bool
  | [], _ => true
  | _ :: _, [] => false
  | a :: as, b :: bs => a = b && leadsList as bs

/-- Index of the leftmost occurrence of `pat` in `hay`, if any
(Python `hay.find(pat)`, with `none` for `-1`). -/
def firstOccL (pat : List Char) : List Char → Option Nat
  | [] => if leadsList pat [] then some 0 else none
  | c :: t =>
      if leadsList pat (c :: t) then some 0
      else (firstOccL pat t).map (· + 1)

/-- Python `hay.replace(old, new, 1)`: splice `new` over the leftmost
occurrence of `old`, or return `hay` unchanged when `old` does not occur. -/
def replOnceL (hay pat repl : List Char) : List Char :=
  match firstOccL pat hay with
  | none => hay
  | some i => hay.take i ++ repl ++ hay.drop (i + pat.length)

/-- Python `name.rsplit('.', 1)` when a dot is present: split at the last
dot, `some (before, after)`; `none` when the list holds no dot. -/
def rsplitDotL : List Char → Option (List Char × List Char)
  | [] => none
  | c :: t =>
      match rsplitDotL t with
      | some (m, cl) => some (c :: m, cl)
      | none => if c = '.' then some ([], t) else none

/-- Python `pat in hay` for strings. -/
def containsSub (hay pat : String) : Bool :=
  (firstOccL pat.data hay.data).isSome

/-- Python `hay.replace(old, new, 1)` on `String`. -/
def replOnceStr (hay pat repl : String) : String :=
  ⟨replOnceL hay.data pat.data repl.data⟩

/-- Python `p.rsplit('.', 1)[-1]`: the text after the last dot, or the whole
string when it has no dot. -/
def lastSegment (p : String) : String :=
  match rsplitDotL p.data with
  | some (_, s) => ⟨s⟩
  | none => p

/-! ## Name sanitization

`DataModelField.validate_name` runs `re.sub(r'\W', '_', name)`.  Python 3
regexes are Unicode by default: `\w` matches `_` plus every character for
which `Py_UNICODE_ISALNUM` holds, not merely `[A-Za-z0-9_]`.  The
classification is tabulated here for the Basic Latin and Latin-1 Supplement
blocks (U+0000–U+00FF), the only range this development evaluates the
sanitizer on; codepoints above U+00FF are left classified as non-word. -/
def pyWordChar (c : Char) : Bool :=
  let n := c.toNat
  (0x30 ≤ n && n ≤ 0x39) || (0x41 ≤ n && n ≤ 0x5A) || n = 0x5F ||
  (0x61 ≤ n && n ≤ 0x7A) ||
  n = 0xAA || n = 0xB2 || n = 0xB3 || n = 0xB5 || n = 0xB9 || n = 0xBA ||
  (0xBC ≤ n && n ≤ 0xBE) || (0xC0 ≤ n && n ≤ 0xD6) ||
  (0xD8 ≤ n && n ≤ 0xF6) || (0xF8 ≤ n && n ≤ 0xFF)

/-- Source `DataModelField.validate_name`: `re.sub(r'\W', '_', name)` — every
character that is not a Python word character is replaced by `'_'`. -/
def sanitizeName (s : String) : String :=
  ⟨s.data.map (fun c => if pyWordChar c then c else '_')⟩

/-- Membership in the character class `[A-Za-z0-9_]` of the spec's regular
expression `^[A-Za-z0-9_]*$`. -/
def asciiWordChar (c : Char) : Bool :=
  ('A' ≤ c && c ≤ 'Z') || ('a' ≤ c && c ≤ 'z') || ('0' ≤ c && c ≤ '9') || c = '_'

/-! ## Import records and type atoms -/

/-- Modelled from the spec: an Import Record is an immutable
`(origin, symbol)` pair identifying one importable name, compared
structurally (`Import` lives in `datamodel_code_generator/imports.py`,
which is not part of this slice; `origin` is optional — a plain
`import symbol` has no originating module). -/
structure Import where
  origin : Option String
  symbol : String
deriving DecidableEq

/-- Modelled from the spec: the `List` import record from the `typing`
module (`IMPORT_LIST` in `datamodel_code_generator/imports.py`). -/
def IMPORT_LIST : Import := ⟨some "typing", "List"⟩

/-- Modelled from the spec: the `Optional` import record from the `typing`
module (`IMPORT_OPTIONAL`). -/
def IMPORT_OPTIONAL : Import := ⟨some "typing", "Optional"⟩

/-- Modelled from the spec: the `Union` import record from the `typing`
module (`IMPORT_UNION`). -/
def IMPORT_UNION : Import := ⟨some "typing", "Union"⟩

/-- Modelled from the spec: `Import.from_full_path` splits a fully
qualified path at its last `.` (module = the text before it, symbol = the
text after); a path with no dot imports the bare name. -/
def importFromFullPath (p : String) : Import :=
  match rsplitDotL p.data with
  | some (m, s) => ⟨some ⟨m⟩, ⟨s⟩⟩
  | none => ⟨none, p⟩

/-- Modelled from the spec: a TypeAtom (`DataType` in
`datamodel_code_generator/types.py`, not part of this slice).  Its
interface as used by `base.py` is `type_hint` (textual type expression),
`unresolved_types` (names of classes not yet defined) and `imports_`
(import records this atom alone requires). -/
structure DataType where
  type_hint : String
  unresolved_types : List String
  imports_ : List Import
deriving DecidableEq

/-! ## Field Composer

`DataModelField._get_type_hint` and its `optional` decorator.  The Python
method mutates `self.imports` by appending; the embedding returns the list
of appended import records alongside the hint (the method never reads
`self.imports`, so the append trace depends only on the atoms and flags). -/

/-- Source `', '.join(d.type_hint for d in self.data_types)`. -/
def joinedHint (dts : List DataType) : String :=
  String.intercalate ", " (dts.map DataType.type_hint)

/-- The body of `DataModelField._get_type_hint` (before the `optional`
decorator): the pre-wrap hint together with the import records the body
appends to `self.imports`, in append order. -/
def coreTypeHint (dts : List DataType) (is_list is_union : Bool) :
    String × List Import :=
  let type_hint := joinedHint dts
  if type_hint = "" then
    if is_list then ("List", [IMPORT_LIST]) else ("", [])
  else if dts.length = 1 then
    if is_list then ("List[" ++ type_hint ++ "]", [IMPORT_LIST])
    else (type_hint, [])
  else if is_list then
    if is_union then
      ("List[Union[" ++ type_hint ++ "]]", [IMPORT_LIST, IMPORT_UNION])
    else ("List[" ++ type_hint ++ "]", [IMPORT_LIST])
  else ("Union[" ++ type_hint ++ "]", [IMPORT_UNION])

/-- The `optional`-decorated `_get_type_hint`: runs the body, then, when the
field is not required, appends `IMPORT_OPTIONAL` and wraps the hint
(`Optional` bare when the pre-wrap hint is empty, else `Optional[...]`);
when required, returns the body's hint with nothing appended. -/
def composeTypeHint (dts : List DataType) (is_list is_union required : Bool) :
    String × List Import :=
  let type_hint := (coreTypeHint dts is_list is_union).1
  let appended := (coreTypeHint dts is_list is_union).2
  if required then (type_hint, appended)
  else if type_hint = "" then ("Optional", appended ++ [IMPORT_OPTIONAL])
  else ("Optional[" ++ type_hint ++ "]", appended ++ [IMPORT_OPTIONAL])

/-! ## Field Descriptor -/

/-- The state of a constructed `DataModelField` (a pydantic model; the
fields are its declared attributes). -/
structure DataModelField where
  name : Option String
  «default» : Option String
  required : Bool
  «alias» : Option String
  data_types : List DataType
  is_list : Bool
  is_union : Bool
  imports : List Import
  type_hint : Option String
  unresolved_types : List String
deriving DecidableEq

/-- Keyword arguments accepted by `DataModelField(**values)`.  An absent
keyword is `none`/the pydantic default (pydantic gives each instance a
fresh copy of a mutable default, so the `[]` defaults are per-instance). -/
structure FieldValues where
  name : Option String := none
  «default» : Option String := none
  required : Bool := false
  «alias» : Option String := none
  data_types : List DataType := []
  is_list : Bool := false
  is_union : Bool := false
  imports : List Import := []
deriving DecidableEq

/-- Source `DataModelField.__init__`: pydantic validation sanitizes `name` (the
`validate_name` validator); then, when the alias is falsy and a name was
supplied, the alias becomes the original, pre-sanitization name from
`values`; then each atom's `unresolved_types` and (when truthy) `imports_`
are appended in atom order; finally `_get_type_hint()` is invoked, which
appends its own import records and stores the composed hint. -/
def mkDataModelField (v : FieldValues) : DataModelField :=
  let name := v.name.map sanitizeName
  let aliasV := if v.«alias».getD "" = "" && v.name.isSome then v.name else v.«alias»
  let atomImports :=
    (v.data_types.map (fun d => if d.imports_.isEmpty then [] else d.imports_)).flatten
  let unres := (v.data_types.map DataType.unresolved_types).flatten
  let hint := (composeTypeHint v.data_types v.is_list v.is_union v.required).1
  let appended := (composeTypeHint v.data_types v.is_list v.is_union v.required).2
  { name := name
    «default» := v.«default»
    required := v.required
    «alias» := aliasV
    data_types := v.data_types
    is_list := v.is_list
    is_union := v.is_union
    imports := v.imports ++ atomImports ++ appended
    type_hint := some hint
    unresolved_types := unres }

/-- Invoking `field._get_type_hint()` on an already constructed field: the
decorated method reads the atoms and flags, appends its implied import
records to `self.imports`, and returns the composed hint. -/
def runGetTypeHint (f : DataModelField) : String × DataModelField :=
  let hint := (composeTypeHint f.data_types f.is_list f.is_union f.required).1
  let appended := (composeTypeHint f.data_types f.is_list f.is_union f.required).2
  (hint, { f with imports := f.imports ++ appended })

/-! ## Model Builder

`DataModel.__init__` (`base.py` lines 112–191).  The class attributes
`TEMPLATE_FILE_PATH` and `BASE_CLASS` vary per component subclass, so they
are passed as a record; `CustomRootType` supplies the one concrete
instantiation present in this slice. -/

/-- The class-level attributes a `DataModel` subclass defines (both default
to the empty string on `DataModel` itself). -/
structure ClassVars where
  TEMPLATE_FILE_PATH : String := ""
  BASE_CLASS : String := ""
deriving DecidableEq

/-- The class attributes of `CustomRootType`
(`model/pydantic/custom_root_type.py`). -/
def customRootType : ClassVars :=
  ⟨"pydantic/BaseModel_root.jinja2", "pydantic.BaseModel"⟩

/-- The arguments of `DataModel.__init__` that the modelled state depends
on.  `custom_template_dir` (filesystem probing) and `extra_template_data`
(defaultdict lookup) are not modelled; no claim mentions them. -/
structure DataModelValues where
  name : String
  fields : List DataModelField
  decorators : Option (List String) := none
  base_classes : Option (List String) := none
  custom_base_class : Option String := none
  imports : Option (List Import) := none
  auto_import : Bool := true
  reference_classes : Option (List String) := none
deriving DecidableEq

/-- Python `xs or []` for an optional list argument (both `None` and `[]`
are falsy and yield `[]`). -/
def pyOrList {α : Type} (o : Option (List α)) : List α :=
  match o with
  | none => []
  | some l => l

/-- Python `s or d` for an optional string (both `None` and `''` are falsy
and yield the fallback). -/
def pyOrStr (o : Option String) (d : String) : String :=
  match o with
  | none => d
  | some s => if s = "" then d else s

/-- Source `base.py` line 143: drop falsy entries from the supplied base-class
list (`[base_class for base_class in base_classes or [] if base_class]`). -/
def filteredBaseClasses (v : DataModelValues) : List String :=
  (pyOrList v.base_classes).filter (fun b => b != "")

/-- Source `base.py` lines 146–150: the reference-class list before the final
union with the fields' unresolved names — the filtered base classes other
than the component's own `BASE_CLASS` (when any base class survives the
filter), extended with the explicitly supplied reference names. -/
def refSeed (cv : ClassVars) (v : DataModelValues) : List String :=
  let bcs := filteredBaseClasses v
  (if bcs.isEmpty then [] else bcs.filter (fun r => r != cv.BASE_CLASS)) ++
    pyOrList v.reference_classes

/-- Source `base.py` lines 152–159: the base-class expression before dotted-name
stripping — the comma-join of the surviving base classes, or, when none
survive, the last dotted segment of the custom or built-in default base
class path. -/
def resolvedBaseExpr (cv : ClassVars) (v : DataModelValues) : String :=
  let bcs := filteredBaseClasses v
  if bcs.isEmpty then lastSegment (pyOrStr v.custom_base_class cv.BASE_CLASS)
  else String.intercalate ", " bcs

/-- Source `base.py` lines 155–158: the auto-added base-class import — present
exactly when no supplied base class survives the filter, `auto_import` is
on, and the custom-or-default base path is non-empty. -/
def autoBaseImports (cv : ClassVars) (v : DataModelValues) : List Import :=
  let bcs := filteredBaseClasses v
  if bcs.isEmpty then
    let full := pyOrStr v.custom_base_class cv.BASE_CLASS
    if v.auto_import && full != "" then [importFromFullPath full] else []
  else []

/-- Source `base.py` lines 166–169: when the model name is dotted, a field whose
hint is non-null and contains `module + "."` has the first occurrence of
that text removed; every other attribute of the field is untouched. -/
def stripFieldHint (pre : String) (f : DataModelField) : DataModelField :=
  match f.type_hint with
  | some th =>
      if containsSub th pre then { f with type_hint := some (replOnceStr th pre "") }
      else f
  | none => f

/-- Source `base.py` lines 181–184: the set of every field's unresolved names
(`unresolved_types.update(set(field.unresolved_types))` over the fields). -/
def unresolvedUnion (fs : List DataModelField) : Finset String :=
  fs.foldl (fun s f => s ∪ f.unresolved_types.toFinset) ∅

/-- The state a successful `DataModel.__init__` leaves behind.  Python
materializes `reference_classes` as `list(set(...))`, whose order is
unspecified, so the embedding keeps the set itself. -/
structure DataModelState where
  name : String
  class_name : String
  fields : List DataModelField
  decorators : List String
  imports : List Import
  base_class : String
  base_classes : List String
  reference_classes : Finset String
deriving DecidableEq

/-- Source `base.py` lines 161–173, `class_name`: the text after the last dot of
a dotted model name, or the whole name when it has no dot. -/
def classNameOf (v : DataModelValues) : String :=
  match rsplitDotL v.name.data with
  | some (_, cn) => ⟨cn⟩
  | none => v.name

/-- Source `base.py` lines 161–165, `base_class` after dotted-name stripping: when
the model name is dotted and the resolved base-class expression starts with
`module + "."`, the first occurrence of that text is removed. -/
def strippedBaseClass (cv : ClassVars) (v : DataModelValues) : String :=
  match rsplitDotL v.name.data with
  | some (m, _) =>
      let pre : String := ⟨m ++ ['.']⟩
      let bc := resolvedBaseExpr cv v
      if leadsList pre.data bc.data then replOnceStr bc pre "" else bc
  | none => resolvedBaseExpr cv v

/-- Source `base.py` lines 161–169, the field list after dotted-name stripping of
each field's hint (the loop mutates the owned `DataModelField` objects). -/
def strippedFields (v : DataModelValues) : List DataModelField :=
  match rsplitDotL v.name.data with
  | some (m, _) => v.fields.map (stripFieldHint ⟨m ++ ['.']⟩)
  | none => v.fields

/-- Source `DataModel.__init__` after the `TEMPLATE_FILE_PATH` check: base-class
resolution, dotted-name stripping of the base expression and the fields'
hints, the reference-class union, and import accumulation (the supplied
records, then the auto base import, then — when `auto_import` — every
field's imports in field order). -/
def constructDataModel (cv : ClassVars) (v : DataModelValues) : DataModelState :=
  let fields2 := strippedFields v
  let imports1 := pyOrList v.imports ++ autoBaseImports cv v
  { name := v.name
    class_name := classNameOf v
    fields := fields2
    decorators := pyOrList v.decorators
    imports :=
      if v.auto_import then imports1 ++ (fields2.map DataModelField.imports).flatten
      else imports1
    base_class := strippedBaseClass cv v
    base_classes := filteredBaseClasses v
    reference_classes := (refSeed cv v).toFinset ∪ unresolvedUnion fields2 }

/-- Source `DataModel.__init__` in full: its first statement raises
`Exception('TEMPLATE_FILE_PATH is undefined')` when the component's
template file path is falsy, before any other work. -/
def DataModel.construct (cv : ClassVars) (v : DataModelValues) :
    Except String DataModelState :=
  if cv.TEMPLATE_FILE_PATH = "" then .error "TEMPLATE_FILE_PATH is undefined"
  else .ok (constructDataModel cv v)

/-! ## Reference definitions taken from the spec's words

These are deliberately written from the claims being checked, to be
compared with the definitions translated from the source. -/

/-- C1's reference pre-wrap algebra, keyed on the number of atoms exactly
as the claim states it. -/
def preWrapSpec (atoms : List String) (is_repeated is_union_flag : Bool) : String :=
  match atoms with
  | [] => if is_repeated then "List" else ""
  | [a] => if is_repeated then "List[" ++ a ++ "]" else a
  | _ =>
      let j := String.intercalate ", " atoms
      if is_repeated then
        if is_union_flag then "List[Union[" ++ j ++ "]]"
        else "List[" ++ j ++ "]"
      else "Union[" ++ j ++ "]"

/-- C1's reference algebra with the optionality wrapping applied last. -/
def typeHintSpec (atoms : List String) (is_repeated is_union_flag required : Bool) :
    String :=
  let pre := preWrapSpec atoms is_repeated is_union_flag
  if required then pre
  else if pre = "" then "Optional" else "Optional[" ++ pre ++ "]"

/-- The amended reference pre-wrap algebra: the empty branch is keyed on
the comma-join of the atoms' hints being empty (zero atoms, or a single
atom whose hint is the empty string), not on the atom count being zero;
all other branches are as the claim states them. -/
def preWrapSpecAmended (atoms : List String) (is_repeated is_union_flag : Bool) :
    String :=
  let j := String.intercalate ", " atoms
  if j = "" then (if is_repeated then "List" else "")
  else
    match atoms with
    | [a] => if is_repeated then "List[" ++ a ++ "]" else a
    | _ =>
        if is_repeated then
          if is_union_flag then "List[Union[" ++ j ++ "]]"
          else "List[" ++ j ++ "]"
        else "Union[" ++ j ++ "]"

/-- The amended reference algebra with the optionality wrapping. -/
def typeHintSpecAmended (atoms : List String)
    (is_repeated is_union_flag required : Bool) : String :=
  let pre := preWrapSpecAmended atoms is_repeated is_union_flag
  if required then pre
  else if pre = "" then "Optional" else "Optional[" ++ pre ++ "]"

/-- C5's reference definition of the final reference-class set: the
explicit reference names, the supplied base-class names other than the
component's own default base class, and every field's unresolved names. -/
def refClassesSpec (cv : ClassVars) (v : DataModelValues) : Finset String :=
  (pyOrList v.reference_classes).toFinset ∪
    ((pyOrList v.base_classes).filter (fun b => b != cv.BASE_CLASS)).toFinset ∪
    unresolvedUnion v.fields

/-! ## Lemmas about the string machinery -/

theorem leadsList_iff (p : List Char) : ∀ h : List Char,
    leadsList p h = true ↔ ∃ t, h = p ++ t := by
  induction p with
  | nil => intro h; simp [leadsList]
  | cons a as ih =>
      intro h
      cases h with
      | nil => simp [leadsList]
      | cons b bs =>
          simp only [leadsList, Bool.and_eq_true, decide_eq_true_eq, ih,
            List.cons_append]
          constructor
          · rintro ⟨rfl, t, rfl⟩; exact ⟨t, rfl⟩
          · rintro ⟨t, ht⟩
            injection ht with h1 h2
            exact ⟨h1.symm, t, h2⟩

theorem firstOccL_of_leads {pat hay : List Char} (h : leadsList pat hay = true) :
    firstOccL pat hay = some 0 := by
  cases hay <;> simp [firstOccL, h]

theorem firstOccL_some_leads {pat : List Char} : ∀ {hay : List Char} {i : Nat},
    firstOccL pat hay = some i → leadsList pat (hay.drop i) = true := by
  intro hay
  induction hay with
  | nil =>
      intro i h
      by_cases hl : leadsList pat [] = true
      · simp [firstOccL, hl] at h
        subst h
        simpa using hl
      · simp [firstOccL, hl] at h
  | cons c t ih =>
      intro i h
      by_cases hl : leadsList pat (c :: t) = true
      · simp [firstOccL, hl] at h
        subst h
        simpa using hl
      · simp [firstOccL, hl] at h
        obtain ⟨j, hj, rfl⟩ := h
        simpa using ih hj

theorem firstOccL_some_min {pat : List Char} : ∀ {hay : List Char} {i : Nat},
    firstOccL pat hay = some i → ∀ j, j < i → leadsList pat (hay.drop j) = false := by
  intro hay
  induction hay with
  | nil =>
      intro i h j hj
      by_cases hl : leadsList pat [] = true
      · simp [firstOccL, hl] at h
        omega
      · simp [firstOccL, hl] at h
  | cons c t ih =>
      intro i h j hj
      by_cases hl : leadsList pat (c :: t) = true
      · simp [firstOccL, hl] at h
        omega
      · simp [firstOccL, hl] at h
        obtain ⟨k, hk, rfl⟩ := h
        cases j with
        | zero => simpa [Bool.not_eq_true] using hl
        | succ j' => simpa using ih hk j' (by omega)

theorem firstOccL_none_leads {pat : List Char} : ∀ {hay : List Char},
    firstOccL pat hay = none → ∀ j, leadsList pat (hay.drop j) = false := by
  intro hay
  induction hay with
  | nil =>
      intro h j
      by_cases hl : leadsList pat [] = true
      · simp [firstOccL, hl] at h
      · simpa [List.drop_nil, Bool.not_eq_true] using hl
  | cons c t ih =>
      intro h j
      by_cases hl : leadsList pat (c :: t) = true
      · simp [firstOccL, hl] at h
      · simp [firstOccL, hl] at h
        cases j with
        | zero => simpa [Bool.not_eq_true] using hl
        | succ j' => simpa using ih h j'

theorem firstOccL_eq_some_of {pat : List Char} : ∀ {hay : List Char} {k : Nat},
    leadsList pat (hay.drop k) = true →
    (∀ j, j < k → leadsList pat (hay.drop j) = false) →
    firstOccL pat hay = some k := by
  intro hay
  induction hay with
  | nil =>
      intro k h1 h2
      have hk : k = 0 := by
        by_contra hne
        have h0 := h2 0 (by omega)
        simp [List.drop_nil] at h0 h1
        rw [h1] at h0
        exact Bool.noConfusion h0
      subst hk
      simp [List.drop_nil] at h1
      simp [firstOccL, h1]
  | cons c t ih =>
      intro k h1 h2
      cases k with
      | zero =>
          simp only [List.drop_zero] at h1
          simp [firstOccL, h1]
      | succ k' =>
          have h0 : leadsList pat (c :: t) = false := by simpa using h2 0 (by omega)
          have ht : firstOccL pat t = some k' :=
            ih (by simpa using h1) (fun j hj => by simpa using h2 (j + 1) (by omega))
          simp [firstOccL, h0, ht]

theorem rsplitDotL_eq_none {l : List Char} (h : '.' ∉ l) : rsplitDotL l = none := by
  induction l with
  | nil => rfl
  | cons c t ih =>
      have hc : ¬ (c = '.') := by
        intro he
        exact h (he ▸ List.mem_cons_self c t)
      have ht : '.' ∉ t := fun hm => h (List.mem_cons_of_mem _ hm)
      simp [rsplitDotL, ih ht, hc]

theorem rsplitDotL_append (m : List Char) {cn : List Char} (h : '.' ∉ cn) :
    rsplitDotL (m ++ '.' :: cn) = some (m, cn) := by
  induction m with
  | nil => simp [rsplitDotL, rsplitDotL_eq_none h]
  | cons c t ih => simp [rsplitDotL, ih]

theorem dot_mem_of_rsplit {l m cn : List Char} (h : rsplitDotL l = some (m, cn)) :
    '.' ∈ l := by
  by_contra hn
  rw [rsplitDotL_eq_none hn] at h
  exact Option.noConfusion h

/-! ## Lemmas about the embedded operations -/

theorem stripFieldHint_name (p : String) (f : DataModelField) :
    (stripFieldHint p f).name = f.name := by
  cases hf : f.type_hint with
  | none => simp [stripFieldHint, hf]
  | some th =>
      simp only [stripFieldHint, hf]
      split <;> rfl

theorem stripFieldHint_alias (p : String) (f : DataModelField) :
    (stripFieldHint p f).«alias» = f.«alias» := by
  cases hf : f.type_hint with
  | none => simp [stripFieldHint, hf]
  | some th =>
      simp only [stripFieldHint, hf]
      split <;> rfl

theorem stripFieldHint_default (p : String) (f : DataModelField) :
    (stripFieldHint p f).«default» = f.«default» := by
  cases hf : f.type_hint with
  | none => simp [stripFieldHint, hf]
  | some th =>
      simp only [stripFieldHint, hf]
      split <;> rfl

theorem stripFieldHint_required (p : String) (f : DataModelField) :
    (stripFieldHint p f).required = f.required := by
  cases hf : f.type_hint with
  | none => simp [stripFieldHint, hf]
  | some th =>
      simp only [stripFieldHint, hf]
      split <;> rfl

theorem stripFieldHint_imports (p : String) (f : DataModelField) :
    (stripFieldHint p f).imports = f.imports := by
  cases hf : f.type_hint with
  | none => simp [stripFieldHint, hf]
  | some th =>
      simp only [stripFieldHint, hf]
      split <;> rfl

theorem stripFieldHint_unresolved (p : String) (f : DataModelField) :
    (stripFieldHint p f).unresolved_types = f.unresolved_types := by
  cases hf : f.type_hint with
  | none => simp [stripFieldHint, hf]
  | some th =>
      simp only [stripFieldHint, hf]
      split <;> rfl

theorem unresolvedUnion_foldl_strip (p : String) :
    ∀ (l : List DataModelField) (init : Finset String),
      (l.map (stripFieldHint p)).foldl (fun s f => s ∪ f.unresolved_types.toFinset) init =
        l.foldl (fun s f => s ∪ f.unresolved_types.toFinset) init := by
  intro l
  induction l with
  | nil => intro init; rfl
  | cons f t ih =>
      intro init
      simp only [List.map_cons, List.foldl_cons, stripFieldHint_unresolved]
      exact ih _

theorem unresolvedUnion_map_strip (p : String) (l : List DataModelField) :
    unresolvedUnion (l.map (stripFieldHint p)) = unresolvedUnion l := by
  unfold unresolvedUnion
  exact unresolvedUnion_foldl_strip p l ∅

theorem unresolvedUnion_strippedFields (v : DataModelValues) :
    unresolvedUnion (strippedFields v) = unresolvedUnion v.fields := by
  unfold strippedFields
  cases h : rsplitDotL v.name.data with
  | none => rfl
  | some mc => simpa using unresolvedUnion_map_strip _ v.fields

theorem strippedFields_map_imports (v : DataModelValues) :
    (strippedFields v).map DataModelField.imports = v.fields.map DataModelField.imports := by
  unfold strippedFields
  cases h : rsplitDotL v.name.data with
  | none => rfl
  | some mc =>
      induction v.fields with
      | nil => rfl
      | cons f t ih =>
          simp only [List.map_cons, List.map_map] at ih ⊢
          simp [Function.comp, stripFieldHint_imports]

theorem mem_unresolvedUnion_foldl {x : String} :
    ∀ (l : List DataModelField) (init : Finset String),
      x ∈ l.foldl (fun s f => s ∪ f.unresolved_types.toFinset) init ↔
        x ∈ init ∨ ∃ f ∈ l, x ∈ f.unresolved_types := by
  intro l
  induction l with
  | nil => intro init; simp
  | cons f t ih =>
      intro init
      simp only [List.foldl_cons, ih, Finset.mem_union, List.mem_toFinset,
        List.mem_cons]
      constructor
      · rintro ((h | h) | ⟨g, hg, hx⟩)
        · exact Or.inl h
        · exact Or.inr ⟨f, Or.inl rfl, h⟩
        · exact Or.inr ⟨g, Or.inr hg, hx⟩
      · rintro (h | ⟨g, (rfl | hg), hx⟩)
        · exact Or.inl (Or.inl h)
        · exact Or.inl (Or.inr hx)
        · exact Or.inr ⟨g, hg, hx⟩

theorem mem_unresolvedUnion {x : String} {l : List DataModelField} :
    x ∈ unresolvedUnion l ↔ ∃ f ∈ l, x ∈ f.unresolved_types := by
  unfold unresolvedUnion
  simpa using mem_unresolvedUnion_foldl l ∅

theorem coreTypeHint_appended (dts : List DataType) (is_list is_union : Bool) :
    (coreTypeHint dts is_list is_union).2 = [] ∨
    (coreTypeHint dts is_list is_union).2 = [IMPORT_LIST] ∨
    (coreTypeHint dts is_list is_union).2 = [IMPORT_UNION] ∨
    (coreTypeHint dts is_list is_union).2 = [IMPORT_LIST, IMPORT_UNION] := by
  by_cases h1 : joinedHint dts = "" <;> by_cases h2 : dts.length = 1 <;>
    cases is_list <;> cases is_union <;>
      simp [coreTypeHint, h1, h2]

theorem IMPORT_OPTIONAL_not_mem_core (dts : List DataType) (is_list is_union : Bool) :
    IMPORT_OPTIONAL ∉ (coreTypeHint dts is_list is_union).2 := by
  rcases coreTypeHint_appended dts is_list is_union with h | h | h | h <;>
    rw [h] <;> decide

theorem intercalate_singleton (s x : String) : String.intercalate s [x] = x := rfl

theorem intercalate_nil (s : String) : String.intercalate s [] = "" := rfl

theorem coreTypeHint_fst (dts : List DataType) (is_list is_union : Bool) :
    (coreTypeHint dts is_list is_union).1 =
      preWrapSpecAmended (dts.map DataType.type_hint) is_list is_union := by
  by_cases h1 : joinedHint dts = "" <;> simp only [joinedHint] at h1
  · cases is_list <;>
      simp [coreTypeHint, preWrapSpecAmended, joinedHint, h1]
  · rcases dts with _ | ⟨d, _ | ⟨d2, ds⟩⟩
    · simp [intercalate_nil] at h1
    · simp only [List.map_cons, List.map_nil, intercalate_singleton] at h1
      cases is_list <;>
        simp [coreTypeHint, preWrapSpecAmended, joinedHint, intercalate_singleton, h1]
    · simp only [List.map_cons] at h1
      cases is_list <;> cases is_union <;>
        simp [coreTypeHint, preWrapSpecAmended, joinedHint, h1]

/-! ## Claim C1 — field type-hint algebra -/

/-- C1 (counterexample): the claim's reference algebra keys its empty
branch on the atom count being zero, but the code keys on the comma-join
being empty.  A repeated field with a single atom whose hint is the empty
string composes to `List` in the code, while the claim's algebra yields
`List[]`. -/
theorem c1_counterexample :
    (composeTypeHint [⟨"", [], []⟩] true false true).1 ≠
      typeHintSpec [""] true false true := by decide

/-- C1 (amended): for every field, the composed type hint equals the
section-4.1 algebra with its empty branch keyed on the comma-join of the
atoms' hints being empty (zero atoms, or one atom with an empty hint)
instead of on the atom count being zero; and the Optional import is
appended exactly when the field is not required. -/
theorem c1_type_hint_algebra (dts : List DataType) (is_list is_union required : Bool) :
    (composeTypeHint dts is_list is_union required).1 =
      typeHintSpecAmended (dts.map DataType.type_hint) is_list is_union required ∧
    (IMPORT_OPTIONAL ∈ (composeTypeHint dts is_list is_union required).2 ↔
      required = false) := by
  cases required with
  | true =>
      constructor
      · simpa [composeTypeHint, typeHintSpecAmended] using
          coreTypeHint_fst dts is_list is_union
      · simp [composeTypeHint, IMPORT_OPTIONAL_not_mem_core dts is_list is_union]
  | false =>
      constructor
      · by_cases hth : (coreTypeHint dts is_list is_union).1 = "" <;>
          simp [composeTypeHint, typeHintSpecAmended, ← coreTypeHint_fst, hth]
      · by_cases hth : (coreTypeHint dts is_list is_union).1 = "" <;>
          simp [composeTypeHint, hth]

/-! ## Claim C2 — the composition invoked twice -/

/-- The concrete field used to exhibit C2's state change: a required
repeated field with no atoms, whose construction already appended the
`List` import once. -/
def c2Field : DataModelField :=
  mkDataModelField { name := some "a", required := true, is_list := true }

/-- C2 (counterexample): invoking the decorated `_get_type_hint` twice on
the same field does not yield identical `(hint, imports)` pairs — each
invocation appends the composition-implied imports to `self.imports`, so
the second pair carries one more copy of the `List` import. -/
theorem c2_counterexample :
    ((runGetTypeHint c2Field).1, (runGetTypeHint c2Field).2.imports) ≠
      ((runGetTypeHint (runGetTypeHint c2Field).2).1,
        (runGetTypeHint (runGetTypeHint c2Field).2).2.imports) := by decide

/-- C2 (amended): the returned hint is identical across invocations (the
composition reads only the atoms and flags), but each invocation appends
the same composition-implied import records to the field's imports — so
the invocation is not side-effect-free, while every attribute other than
`imports` is left unchanged. -/
theorem c2_composition_behavior (f : DataModelField) :
    (runGetTypeHint (runGetTypeHint f).2).1 = (runGetTypeHint f).1 ∧
    (runGetTypeHint f).2.imports =
      f.imports ++ (composeTypeHint f.data_types f.is_list f.is_union f.required).2 ∧
    (runGetTypeHint (runGetTypeHint f).2).2.imports =
      (runGetTypeHint f).2.imports ++
        (composeTypeHint f.data_types f.is_list f.is_union f.required).2 ∧
    (runGetTypeHint f).2.name = f.name ∧
    (runGetTypeHint f).2.«alias» = f.«alias» ∧
    (runGetTypeHint f).2.«default» = f.«default» ∧
    (runGetTypeHint f).2.required = f.required ∧
    (runGetTypeHint f).2.data_types = f.data_types ∧
    (runGetTypeHint f).2.type_hint = f.type_hint ∧
    (runGetTypeHint f).2.unresolved_types = f.unresolved_types :=
  ⟨rfl, rfl, rfl, rfl, rfl, rfl, rfl, rfl, rfl, rfl⟩

/-! ## Claim C3 — name sanitization -/

/-- C3 (counterexample): Python's `\W` is Unicode-aware, so `é` — a Unicode
word character outside `[A-Za-z0-9_]` — is kept by the sanitizer, and the
sanitized name fails the claim's `^[A-Za-z0-9_]*$` regular expression. -/
theorem c3_counterexample :
    sanitizeName "é" = "é" ∧
      ¬ ((sanitizeName "é").data.all asciiWordChar = true) := by decide

/-- C3 (amended): the sanitized name always has the same length as the
input, and every character of it is a Python word character (Unicode
`\w`); it need not match `^[A-Za-z0-9_]*$`, since non-ASCII word
characters are preserved rather than replaced. -/
theorem c3_sanitize_length_word (s : String) :
    (sanitizeName s).length = s.length ∧
    (sanitizeName s).data.all pyWordChar = true := by
  constructor
  · show (sanitizeName s).data.length = s.data.length
    simp [sanitizeName]
  · rw [List.all_eq_true]
    intro c hc
    simp only [sanitizeName, List.mem_map] at hc
    obtain ⟨a, ha, rfl⟩ := hc
    by_cases h : pyWordChar a
    · simp [h]
    · simp [h]
      decide

/-! ## Claim C4 — dotted model names and module-prefix stripping -/

/-- C4: with a dotted model name `m ++ "." ++ cn` (split at the last dot —
`cn` holds no dot), construction takes `cn` as the class name; when the
resolved base-class expression starts with the module prefix `m ++ "."`,
exactly that leading prefix is removed; every field's hint is rewritten by
the per-field strip, which is the identity when the prefix occurs nowhere
in the hint and removes exactly the first (leftmost) occurrence — hence at
most one occurrence — when it does occur. -/
theorem c4_dotted_name_stripping (cv : ClassVars) (v : DataModelValues)
    (m cn : List Char) (hname : v.name.data = m ++ '.' :: cn) (hcn : '.' ∉ cn) :
    (constructDataModel cv v).class_name = ⟨cn⟩ ∧
    (leadsList (m ++ ['.']) (resolvedBaseExpr cv v).data = true →
      (constructDataModel cv v).base_class =
        ⟨(resolvedBaseExpr cv v).data.drop (m.length + 1)⟩) ∧
    (constructDataModel cv v).fields = v.fields.map (stripFieldHint ⟨m ++ ['.']⟩) ∧
    (∀ (f : DataModelField) (th : String), f.type_hint = some th →
      ((∀ j, leadsList (m ++ ['.']) (th.data.drop j) = false) →
        stripFieldHint ⟨m ++ ['.']⟩ f = f) ∧
      (∀ k, leadsList (m ++ ['.']) (th.data.drop k) = true →
        (∀ j, j < k → leadsList (m ++ ['.']) (th.data.drop j) = false) →
        stripFieldHint ⟨m ++ ['.']⟩ f =
          { f with type_hint := some (String.mk
              (th.data.take k ++ th.data.drop (k + (m.length + 1)))) })) := by
  have hsplit : rsplitDotL v.name.data = some (m, cn) := by
    rw [hname]
    exact rsplitDotL_append m hcn
  refine ⟨?_, ?_, ?_, ?_⟩
  · simp [constructDataModel, classNameOf, hsplit]
  · intro hlead
    have h0 : firstOccL (m ++ ['.']) (resolvedBaseExpr cv v).data = some 0 :=
      firstOccL_of_leads hlead
    simp [constructDataModel, strippedBaseClass, hsplit, hlead, replOnceStr,
      replOnceL, h0]
  · simp [constructDataModel, strippedFields, hsplit]
  · intro f th hth
    constructor
    · intro hall
      have hocc : firstOccL (m ++ ['.']) th.data = none := by
        cases hoc : firstOccL (m ++ ['.']) th.data with
        | none => rfl
        | some i =>
            have hl := firstOccL_some_leads hoc
            rw [hall i] at hl
            exact Bool.noConfusion hl
      simp [stripFieldHint, hth, containsSub, hocc]
    · intro k hk hmin
      have hocc : firstOccL (m ++ ['.']) th.data = some k :=
        firstOccL_eq_some_of hk hmin
      simp [stripFieldHint, hth, containsSub, hocc, replOnceStr, replOnceL]

/-- The claim's concrete scenario: model name `pkg.Widget` with the single
base class `pkg.Base`. -/
def c4Values : DataModelValues :=
  { name := "pkg.Widget", fields := [], base_classes := some ["pkg.Base"] }

/-- C4 (witness): on the scenario the class name is `Widget` and the
resolved base-class expression is `Base`. -/
theorem c4_witness :
    (constructDataModel customRootType c4Values).class_name = "Widget" ∧
    (constructDataModel customRootType c4Values).base_class = "Base" := by
  obtain ⟨h1, h2, _, _⟩ :=
    c4_dotted_name_stripping customRootType c4Values "pkg".data "Widget".data
      (by decide) (by decide)
  refine ⟨h1, ?_⟩
  have hb := h2 (by decide)
  rw [hb]
  decide

/-! ## Claim C5 — the final reference-class set -/

/-- A model constructed with `base_classes=[""]`: the empty string is
silently dropped before the reference-class seed is built. -/
def c5Values : DataModelValues :=
  { name := "M", fields := [], base_classes := some [""] }

/-- C5 (counterexample): with a supplied base-class list `[""]` the code
filters the empty string out before seeding `reference_classes`, so the
final set is empty while the claim's union (every supplied base class
other than the default) contains `""`. -/
theorem c5_counterexample :
    (constructDataModel customRootType c5Values).reference_classes ≠
      refClassesSpec customRootType c5Values := by decide

/-- C5 (amended): when every supplied base-class name is non-empty (the
code drops empty entries first), the final `reference_classes` equals, as
a set, the union of the explicit reference names, the supplied base-class
names other than the component's own default base class, and every field's
unresolved names. -/
theorem c5_reference_classes (cv : ClassVars) (v : DataModelValues)
    (h : ∀ b ∈ pyOrList v.base_classes, b ≠ "") :
    (constructDataModel cv v).reference_classes = refClassesSpec cv v := by
  have hfil : filteredBaseClasses v = pyOrList v.base_classes := by
    apply List.filter_eq_self.mpr
    intro b hb
    simpa using h b hb
  have hrc : (constructDataModel cv v).reference_classes =
      (refSeed cv v).toFinset ∪ unresolvedUnion v.fields := by
    simp [constructDataModel, unresolvedUnion_strippedFields]
  rw [hrc]
  ext x
  rcases hbc : pyOrList v.base_classes with _ | ⟨b, bs⟩
  all_goals simp [refSeed, refClassesSpec, hfil, hbc, List.mem_filter]
  all_goals tauto

/-- A field whose single atom carries an unresolved name. -/
def c5WitnessField : DataModelField :=
  mkDataModelField
    { name := some "f", required := true, data_types := [⟨"Other", ["Other"], []⟩] }

/-- A construction exercising all three sources of reference classes. -/
def c5WitnessValues : DataModelValues :=
  { name := "M"
    fields := [c5WitnessField]
    base_classes := some ["A", "pydantic.BaseModel"]
    reference_classes := some ["R"] }

/-- C5 (witness): the amended statement applied to a concrete construction
with a non-default base class, an explicit reference and an unresolved
field type. -/
theorem c5_witness :
    (∀ b ∈ pyOrList c5WitnessValues.base_classes, b ≠ "") ∧
    (constructDataModel customRootType c5WitnessValues).reference_classes =
      refClassesSpec customRootType c5WitnessValues :=
  ⟨by decide, c5_reference_classes customRootType c5WitnessValues (by decide)⟩

/-! ## Claim C6 — the alias default -/

/-- C6: a field constructed with a raw name and no alias stores the
original, pre-sanitization name as its alias, while the stored name is the
sanitized one; the sanitizer is never applied to the alias. -/
theorem c6_alias_default (v : FieldValues) (s : String)
    (ha : v.«alias» = none) (hn : v.name = some s) :
    (mkDataModelField v).«alias» = some s ∧
    (mkDataModelField v).name = some (sanitizeName s) := by
  simp [mkDataModelField, ha, hn]

/-- A raw field name the sanitizer alters. -/
def c6Values : FieldValues := { name := some "foo-bar" }

/-- C6 (witness): for the raw name `foo-bar` the alias keeps the hyphen
while the stored name is sanitized to `foo_bar`. -/
theorem c6_witness :
    (mkDataModelField c6Values).«alias» = some "foo-bar" ∧
    (mkDataModelField c6Values).name = some "foo_bar" := by
  obtain ⟨h1, h2⟩ := c6_alias_default c6Values "foo-bar" rfl rfl
  refine ⟨h1, ?_⟩
  rw [h2]
  decide

/-! ## Claim C7 — import deduplication -/

/-- The duplicated atom import used by C7. -/
def impX : Import := ⟨some "m", "X"⟩

/-- Two atoms carrying the same import record. -/
def c7Values : FieldValues :=
  { name := some "f"
    required := true
    data_types := [⟨"A", [], [impX]⟩, ⟨"B", [], [impX]⟩] }

/-- C7 (counterexample): imports are accumulated by plain appends, so a
field whose two atoms imply the same import record hands the Model a
collection with that record twice — the collection is not deduplicated. -/
theorem c7_counterexample : ¬ (mkDataModelField c7Values).imports.Nodup := by decide

/-- C7 (amended): imports are accumulated by concatenation, preserving
multiplicity, with no deduplication at this layer: a field's imports hold
each record as often as the supplied imports, the atoms' imports and the
composition-implied imports together do, and the model's imports (with
auto-import on) hold each record as often as the supplied imports, the
auto base-class import and every field's imports together do. -/
theorem c7_imports_concatenation (imp : Import) :
    (∀ fv : FieldValues,
      List.count imp (mkDataModelField fv).imports =
        List.count imp fv.imports +
          ((fv.data_types.map (fun d => List.count imp d.imports_)).sum +
            List.count imp
              (composeTypeHint fv.data_types fv.is_list fv.is_union fv.required).2)) ∧
    (∀ (cv : ClassVars) (v : DataModelValues), v.auto_import = true →
      List.count imp (constructDataModel cv v).imports =
        List.count imp (pyOrList v.imports) +
          (List.count imp (autoBaseImports cv v) +
            (v.fields.map (fun f => List.count imp f.imports)).sum)) := by
  constructor
  · intro fv
    have hfe : (List.count imp ∘ fun d : DataType =>
        if d.imports_ = [] then [] else d.imports_) =
        fun d : DataType => List.count imp d.imports_ := by
      funext d
      by_cases hd : d.imports_ = [] <;> simp [hd]
    simp [mkDataModelField, List.count_append, List.count_flatten, List.map_map, hfe]
  · intro cv v hauto
    have hs := strippedFields_map_imports v
    have hfe : (List.count imp ∘ DataModelField.imports) =
        fun f : DataModelField => List.count imp f.imports := rfl
    simp [constructDataModel, hauto, List.count_append, List.count_flatten, hs,
      List.map_map, hfe]

/-- A model owning one field with duplicated imports, plus a supplied
record equal to the duplicated one. -/
def c7WitnessValues : DataModelValues :=
  { name := "M"
    fields := [mkDataModelField c7Values]
    imports := some [impX] }

/-- C7 (witness): the multiplicity law evaluated concretely — the shared
record appears once in the supplied imports and twice through the field,
three times in total. -/
theorem c7_witness :
    List.count impX (constructDataModel customRootType c7WitnessValues).imports = 3 := by
  have h := (c7_imports_concatenation impX).2 customRootType c7WitnessValues rfl
  rw [h]
  decide

/-! ## Claim C8 — undefined template file path -/

/-- C8: constructing a Model for a component kind whose template file path
is undefined (falsy) fails immediately with the fatal configuration error,
and never yields a constructed model state. -/
theorem c8_template_path_check (cv : ClassVars) (v : DataModelValues)
    (h : cv.TEMPLATE_FILE_PATH = "") :
    DataModel.construct cv v = .error "TEMPLATE_FILE_PATH is undefined" ∧
    ∀ st : DataModelState, DataModel.construct cv v ≠ .ok st := by
  constructor
  · simp [DataModel.construct, h]
  · intro st
    simp [DataModel.construct, h]

/-- A component kind that defines no template file path. -/
def c8ClassVars : ClassVars := { BASE_CLASS := "pydantic.BaseModel" }

/-- Arguments for the C8 witness construction. -/
def c8Values : DataModelValues := { name := "M", fields := [] }

/-- C8 (witness): the check applied to a concrete component kind with an
undefined template path. -/
theorem c8_witness :
    DataModel.construct c8ClassVars c8Values =
      .error "TEMPLATE_FILE_PATH is undefined" :=
  (c8_template_path_check c8ClassVars c8Values rfl).1

/-! ## Claim C9 — field immutability under model construction -/

/-- A field whose composed hint carries a module qualifier. -/
def c9Field : DataModelField :=
  mkDataModelField
    { name := some "w", required := true, data_types := [⟨"pkg.T", [], []⟩] }

/-- The field owned by a model with a dotted name. -/
def c9Values : DataModelValues := { name := "pkg.Widget", fields := [c9Field] }

/-- C9 (counterexample): constructing a Model with a dotted name mutates
its owned field — the field's composed type hint `pkg.T` is rewritten to
`T`, so the field is not immutable under model construction. -/
theorem c9_counterexample :
    (constructDataModel customRootType c9Values).fields.map DataModelField.type_hint ≠
      c9Values.fields.map DataModelField.type_hint := by decide

/-- C9 (amended): model construction leaves every field attribute other
than the composed type hint unchanged (name, alias, default, required,
imports, unresolved names), and also leaves the composed type hint
unchanged whenever the model name holds no dot. -/
theorem c9_field_attributes_preserved (cv : ClassVars) (v : DataModelValues)
    (i : Nat) :
    ((constructDataModel cv v).fields[i]?).map DataModelField.name =
      (v.fields[i]?).map DataModelField.name ∧
    ((constructDataModel cv v).fields[i]?).map DataModelField.«alias» =
      (v.fields[i]?).map DataModelField.«alias» ∧
    ((constructDataModel cv v).fields[i]?).map DataModelField.«default» =
      (v.fields[i]?).map DataModelField.«default» ∧
    ((constructDataModel cv v).fields[i]?).map DataModelField.required =
      (v.fields[i]?).map DataModelField.required ∧
    ((constructDataModel cv v).fields[i]?).map DataModelField.imports =
      (v.fields[i]?).map DataModelField.imports ∧
    ((constructDataModel cv v).fields[i]?).map DataModelField.unresolved_types =
      (v.fields[i]?).map DataModelField.unresolved_types ∧
    ('.' ∉ v.name.data →
      ((constructDataModel cv v).fields[i]?).map DataModelField.type_hint =
        (v.fields[i]?).map DataModelField.type_hint) := by
  have hf : (constructDataModel cv v).fields = strippedFields v := by
    simp [constructDataModel]
  rw [hf]
  unfold strippedFields
  cases hm : rsplitDotL v.name.data with
  | none => simp
  | some mc =>
      obtain ⟨m, cn⟩ := mc
      have hdot : '.' ∈ v.name.data := dot_mem_of_rsplit hm
      refine ⟨?_, ?_, ?_, ?_, ?_, ?_, fun hnd => absurd hdot hnd⟩ <;>
        rw [List.getElem?_map] <;>
        cases hg : v.fields[i]? <;>
        simp [stripFieldHint_name, stripFieldHint_alias, stripFieldHint_default,
          stripFieldHint_required, stripFieldHint_imports, stripFieldHint_unresolved]

/-- The same owned field under an undotted model name. -/
def c9WitnessValues : DataModelValues := { name := "Widget", fields := [c9Field] }

/-- C9 (witness): with an undotted model name even the composed type hint
of the owned field is unchanged by construction. -/
theorem c9_witness :
    ((constructDataModel customRootType c9WitnessValues).fields[0]?).map
        DataModelField.type_hint = some (some "pkg.T") := by
  have h :=
    (c9_field_attributes_preserved customRootType c9WitnessValues 0).2.2.2.2.2.2
      (by decide)
  rw [h]
  decide

/-! ## Claim C10 — empty-string base classes are dropped -/

/-- C10: a supplied base-class list whose entries are all empty strings
behaves exactly like an absent base-class list — construction yields the
identical model state. -/
theorem c10_empty_base_classes (cv : ClassVars) (v : DataModelValues)
    (bcs : List String) (h : ∀ b ∈ bcs, b = "") :
    DataModel.construct cv { v with base_classes := some bcs } =
      DataModel.construct cv { v with base_classes := none } := by
  obtain ⟨nm, fs, dec, bc0, cbc, imp0, ai, rc⟩ := v
  have h1 : filteredBaseClasses
      { name := nm, fields := fs, decorators := dec, base_classes := some bcs,
        custom_base_class := cbc, imports := imp0, auto_import := ai,
        reference_classes := rc } = [] := by
    simp only [filteredBaseClasses, pyOrList, List.filter_eq_nil_iff]
    intro b hb
    simpa using h b hb
  have h2 : filteredBaseClasses
      { name := nm, fields := fs, decorators := dec, base_classes := none,
        custom_base_class := cbc, imports := imp0, auto_import := ai,
        reference_classes := rc } = [] := by
    simp [filteredBaseClasses, pyOrList]
  simp [DataModel.construct, constructDataModel, strippedFields, classNameOf,
    strippedBaseClass, resolvedBaseExpr, autoBaseImports, refSeed, h1, h2]

/-- Arguments for the C10 witness construction. -/
def c10Values : DataModelValues := { name := "M", fields := [] }

/-- C10 (witness): the equivalence applied to the concrete list of two
empty strings. -/
theorem c10_witness :
    DataModel.construct customRootType { c10Values with base_classes := some ["", ""] } =
      DataModel.construct customRootType { c10Values with base_classes := none } :=
  c10_empty_base_classes customRootType c10Values ["", ""] (by decide)
